import Mathlib

/-!
A shallow embedding of the topology layout and interaction engine of the
TopologyView component (src/unnamed/part_003): its five layout algorithms,
the manual-positioning override mechanism, device dragging, the layout-type
select handler, and named view save/load/delete.

Modelling conventions, used throughout:
JavaScript `Map` objects are association lists in insertion order
(`mget`, `mset`, `mdelete`), `Set` objects are duplicate-free lists in
insertion order (`sadd`), and JavaScript numbers are rationals.
`Math.cos`, `Math.sin`, `Math.sqrt` and `Math.random` are abstracted as
rational-valued functions in a `NumEnv`: `cosF t` stands for
`Math.cos (2 * PI * t)` and `sinF t` for `Math.sin (2 * PI * t)` (the source
only ever takes cosine and sine of a rational fraction of a full turn),
`sqrtF` for `Math.sqrt`, and `randF n` for the result of the n-th
`Math.random()` call of the computation.
-/

namespace R1Mapper

/-- Device kinds of the RuckusDevice type field: ap, switch, router, unknown. -/
inductive DeviceType where
  | ap
  | switch
  | router
  | unknown
deriving DecidableEq

/-- The fields of RuckusDevice that the layout and interaction code reads. -/
structure RuckusDevice where
  id : String
  type : DeviceType
deriving DecidableEq

/-- The fields of LLDPLink that the layout code reads. -/
structure LLDPLink where
  localDeviceId : String
  remoteDeviceId : String
deriving DecidableEq

/-- LayoutType: circle, hierarchical, force-directed, grid, tree. -/
inductive LayoutType where
  | circle
  | hierarchical
  | forceDirected
  | grid
  | tree
deriving DecidableEq

abbrev Point := ℚ × ℚ

/-- The component's dimensions state (viewport width and height). -/
structure Dimensions where
  width : ℚ
  height : ℚ
deriving DecidableEq

/-- A JavaScript Map with String keys, modelled as its ordered entry list
(keys are unique for every map the code builds). -/
abbrev JMap (α : Type) := List (String × α)

/-- Map.get: the value of the entry with the given key, if present. -/
def mget {α : Type} : JMap α → String → Option α
  | [], _ => none
  | e :: rest, k => if e.1 = k then some e.2 else mget rest k

/-- Map.set: replace the value in place if the key is present, else append. -/
def mset {α : Type} : JMap α → String → α → JMap α
  | [], k, v => [(k, v)]
  | e :: rest, k, v => if e.1 = k then (k, v) :: rest else e :: mset rest k v

/-- Map.delete: drop the entry with the given key, if present. -/
def mdelete {α : Type} : JMap α → String → JMap α
  | [], _ => []
  | e :: rest, k => if e.1 = k then rest else e :: mdelete rest k

/-- The keys of a map, in entry order. -/
def mkeys {α : Type} (m : JMap α) : List String := m.map Prod.fst

/-- Set.add on a Set of strings modelled as its ordered element list. -/
def sadd (s : List String) (k : String) : List String :=
  if k ∈ s then s else s ++ [k]

/-- The whitespace characters relevant to trimming the names typed at the
view-name prompt. -/
def isSpaceChar (c : Char) : Bool :=
  c == ' ' || c == '\t' || c == '\n' || c == '\r'

/-- String.prototype.trim, applied by saveView to the prompted view name. -/
def strTrim (s : String) : String :=
  ⟨((s.data.dropWhile isSpaceChar).reverse.dropWhile isSpaceChar).reverse⟩

/-- The abstracted numeric primitives (see the module comment). -/
structure NumEnv where
  cosF : ℚ → ℚ
  sinF : ℚ → ℚ
  sqrtF : ℚ → ℚ
  randF : ℕ → ℚ

/-- The or-1 idiom of the source: distance is Math.sqrt(..) || 1. -/
def jsOr1 (q : ℚ) : ℚ := if q = 0 then 1 else q

/-- The constant margin = 50 of calculateLayout. -/
def margin : ℚ := 50

/-- Models list.forEach((device, index) => positions.set(device.id, posOf index device)),
with the running index starting at i. -/
def setEachIdx (posOf : ℕ → RuckusDevice → Point) :
    ℕ → List RuckusDevice → JMap Point → JMap Point
  | _, [], positions => positions
  | i, device :: rest, positions =>
      setEachIdx posOf (i + 1) rest (mset positions device.id (posOf i device))

/-- The circle branch of calculateLayout: the index-th device sits at angle
2 * PI * index / devices.length on a circle of radius 0.3 * min(width, height)
around the viewport center. -/
def circlePositions (env : NumEnv) (devices : List RuckusDevice) (dims : Dimensions) :
    JMap Point :=
  let centerX := dims.width / 2
  let centerY := dims.height / 2
  let radius := min dims.width dims.height * (3 / 10)
  setEachIdx
    (fun index _ =>
      (centerX + radius * env.cosF ((index : ℚ) / (devices.length : ℚ)),
       centerY + radius * env.sinF ((index : ℚ) / (devices.length : ℚ))))
    0 devices []

/-- The hierarchical branch of calculateLayout: switches on a top row, access
points on a middle row, everything else on a bottom row; within a row the
index-th device sits at margin + index * (width - 2 * margin) / max(row - 1, 1). -/
def hierarchicalPositions (devices : List RuckusDevice) (dims : Dimensions) : JMap Point :=
  let centerY := dims.height / 2
  let switches := devices.filter (fun d => d.type == DeviceType.switch)
  let aps := devices.filter (fun d => d.type == DeviceType.ap)
  let others := devices.filter
    (fun d => d.type != DeviceType.switch && d.type != DeviceType.ap)
  let p1 := setEachIdx
    (fun index _ =>
      (margin + ((index : ℚ) * (dims.width - 2 * margin)) /
        ((max (switches.length - 1) 1 : ℕ) : ℚ),
       margin + 50))
    0 switches []
  let p2 := setEachIdx
    (fun index _ =>
      (margin + ((index : ℚ) * (dims.width - 2 * margin)) /
        ((max (aps.length - 1) 1 : ℕ) : ℚ),
       centerY))
    0 aps p1
  setEachIdx
    (fun index _ =>
      (margin + ((index : ℚ) * (dims.width - 2 * margin)) /
        ((max (others.length - 1) 1 : ℕ) : ℚ),
       dims.height - margin - 50))
    0 others p2

/-- Math.ceil(Math.sqrt n) on a natural number. -/
def natCeilSqrt (n : ℕ) : ℕ :=
  if Nat.sqrt n * Nat.sqrt n = n then Nat.sqrt n else Nat.sqrt n + 1

/-- Math.ceil(n / d) on natural numbers, for d > 0. -/
def natCeilDiv (n d : ℕ) : ℕ := (n + d - 1) / d

/-- The grid branch of calculateLayout: ceil(sqrt n) columns filling the
margin-inset viewport, row-major. -/
def gridPositions (devices : List RuckusDevice) (dims : Dimensions) : JMap Point :=
  let cols := natCeilSqrt devices.length
  let cellWidth := (dims.width - 2 * margin) / (cols : ℚ)
  let cellHeight := (dims.height - 2 * margin) / ((natCeilDiv devices.length cols : ℕ) : ℚ)
  setEachIdx
    (fun index _ =>
      let row := index / cols
      let col := index % cols
      (margin + (col : ℚ) * cellWidth + cellWidth / 2,
       margin + (row : ℚ) * cellHeight + cellHeight / 2))
    0 devices []

/-- The tree branch of calculateLayout: the first switch found is pinned at the
viewport center, access points ring it at radius 0.25 * min(width, height),
remaining non-switch non-ap devices ring further out at 0.4 * min(width, height);
with no switch it falls back to the circle layout.  Note that switches other
than the first receive no position at all. -/
def treePositions (env : NumEnv) (devices : List RuckusDevice) (dims : Dimensions) :
    JMap Point :=
  let centerX := dims.width / 2
  let centerY := dims.height / 2
  match devices.find? (fun d => d.type == DeviceType.switch) with
  | some centralSwitch =>
      let treeAPs := devices.filter (fun d => d.type == DeviceType.ap)
      let treeOthers := devices.filter
        (fun d => d.type != DeviceType.switch && d.type != DeviceType.ap)
      let treeRadius := min dims.width dims.height * (1 / 4)
      let p1 := setEachIdx
        (fun index _ =>
          (centerX + treeRadius * env.cosF ((index : ℚ) / ((max treeAPs.length 1 : ℕ) : ℚ)),
           centerY + treeRadius * env.sinF ((index : ℚ) / ((max treeAPs.length 1 : ℕ) : ℚ))))
        0 treeAPs (mset [] centralSwitch.id (centerX, centerY))
      let outerRadius := min dims.width dims.height * (2 / 5)
      setEachIdx
        (fun index _ =>
          (centerX + outerRadius * env.cosF ((index : ℚ) / ((max treeOthers.length 1 : ℕ) : ℚ)),
           centerY + outerRadius * env.sinF ((index : ℚ) / ((max treeOthers.length 1 : ℕ) : ℚ))))
        0 treeOthers p1
  | none => circlePositions env devices dims

/-- The random initial placement of the force-directed branch: the index-th
device consumes the next two Math.random() results for its x and y. -/
def fdInitPositions (env : NumEnv) (devices : List RuckusDevice) (dims : Dimensions) :
    JMap Point :=
  setEachIdx
    (fun index _ =>
      (env.randF (2 * index) * (dims.width - 2 * margin) + margin,
       env.randF (2 * index + 1) * (dims.height - 2 * margin) + margin))
    0 devices []

/-- The per-iteration force initialization: forces.set(device.id, 0, 0)
for every device. -/
def initForces : List RuckusDevice → JMap Point → JMap Point
  | [], forces => forces
  | device :: rest, forces => initForces rest (mset forces device.id (0, 0))

/-- The inner loop (over k = j + 1 .. n - 1) of the repulsive pass, for a
fixed device1 = devices[j]; the first argument of the recursion is the inner
loop counter k.  Faithful to the source: the scalar force is (k * k) / distance
where k is this inner LOOP INDEX — the outer declaration of k as
Math.sqrt(width * height / n) is shadowed inside this loop. -/
def repelInner (env : NumEnv) (device1 : RuckusDevice) (positions : JMap Point) :
    ℕ → List RuckusDevice → JMap Point → JMap Point
  | _, [], forces => forces
  | k, device2 :: rest, forces =>
      let pos1 := (mget positions device1.id).getD (0, 0)
      let pos2 := (mget positions device2.id).getD (0, 0)
      let dx := pos1.1 - pos2.1
      let dy := pos1.2 - pos2.2
      let distance := jsOr1 (env.sqrtF (dx * dx + dy * dy))
      let force := ((k : ℚ) * (k : ℚ)) / distance
      let fx := (dx / distance) * force
      let fy := (dy / distance) * force
      let f1 := (mget forces device1.id).getD (0, 0)
      let forces1 := mset forces device1.id (f1.1 + fx, f1.2 + fy)
      let f2 := (mget forces1 device2.id).getD (0, 0)
      repelInner env device1 positions (k + 1) rest
        (mset forces1 device2.id (f2.1 - fx, f2.2 - fy))

/-- The outer loop (over j) of the repulsive pass: for devices[j], run the
inner loop over the devices after index j. -/
def repelOuter (env : NumEnv) (positions : JMap Point) :
    ℕ → List RuckusDevice → JMap Point → JMap Point
  | _, [], forces => forces
  | j, device1 :: rest, forces =>
      repelOuter env positions (j + 1) rest
        (repelInner env device1 positions (j + 1) rest forces)

/-- The attractive pass over the links; kFR is the (unshadowed) outer constant
k = Math.sqrt(width * height / n).  Links with a missing endpoint position are
skipped. -/
def attractLinks (env : NumEnv) (kFR : ℚ) (positions : JMap Point) :
    List LLDPLink → JMap Point → JMap Point
  | [], forces => forces
  | link :: rest, forces =>
      match mget positions link.localDeviceId, mget positions link.remoteDeviceId with
      | some pos1, some pos2 =>
          let dx := pos2.1 - pos1.1
          let dy := pos2.2 - pos1.2
          let distance := jsOr1 (env.sqrtF (dx * dx + dy * dy))
          let force := (distance * distance) / kFR
          let fx := (dx / distance) * force
          let fy := (dy / distance) * force
          let f1 := (mget forces link.localDeviceId).getD (0, 0)
          let forces1 := mset forces link.localDeviceId (f1.1 + fx, f1.2 + fy)
          let f2 := (mget forces1 link.remoteDeviceId).getD (0, 0)
          attractLinks env kFR positions rest
            (mset forces1 link.remoteDeviceId (f2.1 - fx, f2.2 - fy))
      | _, _ => attractLinks env kFR positions rest forces

/-- Applying the net forces: each device moves by force * damping (0.1),
clamped into the margin-inset viewport. -/
def applyForces (dims : Dimensions) (forces : JMap Point) :
    List RuckusDevice → JMap Point → JMap Point
  | [], positions => positions
  | device :: rest, positions =>
      let pos := (mget positions device.id).getD (0, 0)
      let force := (mget forces device.id).getD (0, 0)
      let damping : ℚ := 1 / 10
      applyForces dims forces rest
        (mset positions device.id
          (max margin (min (dims.width - margin) (pos.1 + force.1 * damping)),
           max margin (min (dims.height - margin) (pos.2 + force.2 * damping))))

/-- One iteration of the force simulation: zero the forces, repulsive pass,
attractive pass, then apply. -/
def fdIteration (env : NumEnv) (devices : List RuckusDevice) (links : List LLDPLink)
    (dims : Dimensions) (kFR : ℚ) (positions : JMap Point) : JMap Point :=
  applyForces dims
    (attractLinks env kFR positions links
      (repelOuter env positions 0 devices (initForces devices [])))
    devices positions

/-- The fixed-count iteration loop of the force simulation. -/
def fdIterate (env : NumEnv) (devices : List RuckusDevice) (links : List LLDPLink)
    (dims : Dimensions) (kFR : ℚ) : ℕ → JMap Point → JMap Point
  | 0, positions => positions
  | n + 1, positions =>
      fdIterate env devices links dims kFR n (fdIteration env devices links dims kFR positions)

/-- The force-directed branch of calculateLayout: 100 iterations from the
random initial placement. -/
def forceDirectedPositions (env : NumEnv) (devices : List RuckusDevice)
    (links : List LLDPLink) (dims : Dimensions) : JMap Point :=
  let kFR := env.sqrtF ((dims.width * dims.height) / (devices.length : ℚ))
  fdIterate env devices links dims kFR 100 (fdInitPositions env devices dims)

/-- The switch statement of calculateLayout: the algorithmic position map of
one layout, before manual overrides are re-applied. -/
def baseLayout (env : NumEnv) (devices : List RuckusDevice) (links : List LLDPLink)
    (dims : Dimensions) : LayoutType → JMap Point
  | .circle => circlePositions env devices dims
  | .hierarchical => hierarchicalPositions devices dims
  | .grid => gridPositions devices dims
  | .tree => treePositions env devices dims
  | .forceDirected => forceDirectedPositions env devices links dims

/-- The final loop of calculateLayout: for every manually positioned device id
that has an entry in the devicePositions state, overwrite the algorithmic
position with that entry. -/
def applyManualOverrides (devicePositions : JMap Point) :
    List String → JMap Point → JMap Point
  | [], positions => positions
  | deviceId :: rest, positions =>
      match mget devicePositions deviceId with
      | some customPos =>
          applyManualOverrides devicePositions rest (mset positions deviceId customPos)
      | none => applyManualOverrides devicePositions rest positions

/-- calculateLayout(layout): empty map for an empty device list, otherwise the
layout's algorithmic positions with the manual overrides re-applied on top.
The component state it reads (manuallyPositionedDevices, devicePositions) and
the props (devices, links) and dimensions state are explicit arguments. -/
def calculateLayout (env : NumEnv) (devices : List RuckusDevice) (links : List LLDPLink)
    (dims : Dimensions) (layout : LayoutType)
    (manuallyPositionedDevices : List String) (devicePositions : JMap Point) : JMap Point :=
  if devices.length = 0 then []
  else
    applyManualOverrides devicePositions manuallyPositionedDevices
      (baseLayout env devices links dims layout)

/-- A saved view snapshot: positions, layout and the manually positioned set. -/
structure SavedView where
  positions : JMap Point
  layout : LayoutType
  manuallyPositioned : List String
deriving DecidableEq

/-- The component state the specified behaviour reads and writes.  The
localStorage mirror of savedViews is not modelled: savedViews is the
authoritative snapshot collection. -/
structure CompState where
  layoutType : LayoutType
  zoom : ℚ
  pan : Point
  isDragging : Bool
  dragStart : Point
  lastPan : Point
  isDraggingDevice : Bool
  draggedDeviceId : Option String
  deviceDragStart : Point
  devicePositions : JMap Point
  manuallyPositionedDevices : List String
  savedViews : JMap SavedView
deriving DecidableEq

/-- The blocking browser dialogs the component raises (alert messages),
as an abstract report channel. -/
inductive UIAlert where
  | noVenueSelected
  | savedSuccessfully (viewName : String)
  | loadedSuccessfully (viewName : String)
deriving DecidableEq

/-- handleMouseMove: while a device drag is active the screen delta is divided
by the zoom, added to the dragged device's position, and the device is marked
manually positioned; otherwise an active canvas pan moves the pan offset by
the raw screen delta. -/
def handleMouseMove (s : CompState) (clientX clientY : ℚ) : CompState :=
  match s.isDraggingDevice, s.draggedDeviceId with
  | true, some draggedId =>
      let deltaX := (clientX - s.deviceDragStart.1) / s.zoom
      let deltaY := (clientY - s.deviceDragStart.2) / s.zoom
      match mget s.devicePositions draggedId with
      | some currentPos =>
          { s with
            devicePositions :=
              mset s.devicePositions draggedId (currentPos.1 + deltaX, currentPos.2 + deltaY)
            deviceDragStart := (clientX, clientY)
            manuallyPositionedDevices := sadd s.manuallyPositionedDevices draggedId }
      | none => s
  | _, _ =>
      if s.isDragging then
        { s with
          pan := (s.lastPan.1 + (clientX - s.dragStart.1),
                  s.lastPan.2 + (clientY - s.dragStart.2)) }
      else s

/-- The onChange handler of the layout select: with manually positioned
devices present and the confirm dialog declined, nothing happens; otherwise
the layout type is set, positions are recomputed (with the still-uncleared
manual set re-applied by calculateLayout), and the manual set is cleared. -/
def layoutSelectOnChange (env : NumEnv) (devices : List RuckusDevice)
    (links : List LLDPLink) (dims : Dimensions) (s : CompState)
    (newLayout : LayoutType) (confirmResult : Bool) : CompState :=
  if s.manuallyPositionedDevices.length > 0 ∧ confirmResult = false then s
  else
    { s with
      layoutType := newLayout
      devicePositions :=
        calculateLayout env devices links dims newLayout
          s.manuallyPositionedDevices s.devicePositions
      manuallyPositionedDevices := [] }

/-- The useEffect on [devices, dimensions, layoutType]: recompute the
positions with the current layout type and store them. -/
def layoutRecomputeEffect (env : NumEnv) (devices : List RuckusDevice)
    (links : List LLDPLink) (dims : Dimensions) (s : CompState) : CompState :=
  { s with
    devicePositions :=
      calculateLayout env devices links dims s.layoutType
        s.manuallyPositionedDevices s.devicePositions }

/-- saveView: without a venue id, an alert and no write; with a prompt result
that is null, empty or all whitespace, nothing; otherwise the snapshot of
the current positions, layout and manual set is stored under the trimmed
name (overwriting silently) and a success alert is raised. -/
def saveView (s : CompState) (venueId : Option String) (promptName : Option String) :
    CompState × Option UIAlert :=
  match venueId with
  | none => (s, some UIAlert.noVenueSelected)
  | some _ =>
      match promptName with
      | none => (s, none)
      | some viewName =>
          if viewName = "" then (s, none)
          else if strTrim viewName = "" then (s, none)
          else
            ({ s with
               savedViews :=
                 mset s.savedViews (strTrim viewName)
                   { positions := s.devicePositions
                     layout := s.layoutType
                     manuallyPositioned := s.manuallyPositionedDevices } },
             some (UIAlert.savedSuccessfully viewName))

/-- loadView: a known name replaces positions, layout type and the manual set
with the snapshot and raises a success alert; an unknown name does nothing
and raises nothing. -/
def loadView (s : CompState) (viewName : String) : CompState × Option UIAlert :=
  match mget s.savedViews viewName with
  | some view =>
      ({ s with
         devicePositions := view.positions
         layoutType := view.layout
         manuallyPositionedDevices := view.manuallyPositioned },
       some (UIAlert.loadedSuccessfully viewName))
  | none => (s, none)

/-- deleteView: without a venue id, or with the confirm dialog declined,
nothing; otherwise the entry of the given name (if any) is removed from the
snapshot collection. -/
def deleteView (s : CompState) (venueId : Option String) (viewName : String)
    (confirmResult : Bool) : CompState :=
  match venueId with
  | none => s
  | some _ =>
      if confirmResult then { s with savedViews := mdelete s.savedViews viewName }
      else s

theorem mkeys_nil {α : Type} : mkeys ([] : JMap α) = [] := rfl

theorem mkeys_cons {α : Type} (e : String × α) (rest : JMap α) :
    mkeys (e :: rest) = e.1 :: mkeys rest := rfl

theorem mget_mset_self {α : Type} (m : JMap α) (k : String) (v : α) :
    mget (mset m k v) k = some v := by
  induction m with
  | nil => simp [mset, mget]
  | cons e rest ih =>
      by_cases h : e.1 = k
      · simp [mset, h, mget]
      · simp [mset, h, mget, ih]

theorem mget_mset_ne {α : Type} (m : JMap α) (k k' : String) (v : α) (h : k' ≠ k) :
    mget (mset m k v) k' = mget m k' := by
  induction m with
  | nil => simp [mset, mget, Ne.symm h]
  | cons e rest ih =>
      by_cases he : e.1 = k
      · subst he
        simp [mset, mget, Ne.symm h]
      · simp only [mset, if_neg he, mget, ih]

theorem mem_mkeys_iff {α : Type} (m : JMap α) (k : String) :
    k ∈ mkeys m ↔ (mget m k).isSome := by
  induction m with
  | nil => simp [mkeys, mget]
  | cons e rest ih =>
      simp only [mkeys_cons, List.mem_cons, mget]
      by_cases h : e.1 = k
      · simp [h]
      · simp [Ne.symm h, if_neg h, ih]

theorem mkeys_mset {α : Type} (m : JMap α) (k : String) (v : α) :
    mkeys (mset m k v) = if k ∈ mkeys m then mkeys m else mkeys m ++ [k] := by
  induction m with
  | nil => simp [mkeys, mset]
  | cons e rest ih =>
      by_cases h : e.1 = k
      · simp [mset, h, mkeys_cons]
      · simp only [mset, if_neg h, mkeys_cons, ih, List.mem_cons]
        by_cases hk : k ∈ mkeys rest
        · simp [hk, Ne.symm h]
        · simp [hk, Ne.symm h]

theorem mem_mkeys_mset {α : Type} (m : JMap α) (k k' : String) (v : α) :
    k' ∈ mkeys (mset m k v) ↔ k' = k ∨ k' ∈ mkeys m := by
  rw [mkeys_mset]
  by_cases h : k ∈ mkeys m
  · simp only [if_pos h]
    constructor
    · exact Or.inr
    · rintro (rfl | hk) <;> [exact h; exact hk]
  · simp [if_neg h, or_comm]

theorem nodup_mkeys_mset {α : Type} (m : JMap α) (k : String) (v : α)
    (h : (mkeys m).Nodup) : (mkeys (mset m k v)).Nodup := by
  rw [mkeys_mset]
  by_cases hk : k ∈ mkeys m
  · simpa [hk]
  · simpa [hk, List.nodup_append] using h

theorem mget_eq_none_of_not_mem_mkeys {α : Type} (m : JMap α) (k : String)
    (h : k ∉ mkeys m) : mget m k = none := by
  rcases ho : mget m k with _ | v
  · rfl
  · exact absurd ((mem_mkeys_iff m k).mpr (by simp [ho])) h

theorem mdelete_of_not_mem {α : Type} (m : JMap α) (k : String)
    (h : k ∉ mkeys m) : mdelete m k = m := by
  induction m with
  | nil => rfl
  | cons e rest ih =>
      simp only [mkeys_cons, List.mem_cons] at h
      push_neg at h
      simp [mdelete, Ne.symm h.1, ih h.2]

theorem mem_mkeys_setEachIdx (posOf : ℕ → RuckusDevice → Point) (i : ℕ)
    (l : List RuckusDevice) (m : JMap Point) (k : String) :
    k ∈ mkeys (setEachIdx posOf i l m) ↔ k ∈ mkeys m ∨ k ∈ l.map RuckusDevice.id := by
  induction l generalizing i m with
  | nil => simp [setEachIdx]
  | cons d rest ih =>
      simp only [setEachIdx, ih, mem_mkeys_mset, List.map_cons, List.mem_cons]
      tauto

theorem nodup_mkeys_setEachIdx (posOf : ℕ → RuckusDevice → Point) (i : ℕ)
    (l : List RuckusDevice) (m : JMap Point) (h : (mkeys m).Nodup) :
    (mkeys (setEachIdx posOf i l m)).Nodup := by
  induction l generalizing i m with
  | nil => simpa [setEachIdx]
  | cons d rest ih => exact ih (i + 1) _ (nodup_mkeys_mset _ _ _ h)

theorem mget_setEachIdx_of_not_mem (posOf : ℕ → RuckusDevice → Point) (i : ℕ)
    (l : List RuckusDevice) (m : JMap Point) (k : String)
    (h : k ∉ l.map RuckusDevice.id) :
    mget (setEachIdx posOf i l m) k = mget m k := by
  induction l generalizing i m with
  | nil => rfl
  | cons d rest ih =>
      simp only [List.map_cons, List.mem_cons] at h
      push_neg at h
      rw [setEachIdx, ih _ _ h.2, mget_mset_ne _ _ _ _ h.1]

theorem mget_setEachIdx_get (posOf : ℕ → RuckusDevice → Point) (i : ℕ)
    (l : List RuckusDevice) (m : JMap Point)
    (hl : (l.map RuckusDevice.id).Nodup) (j : ℕ) (hj : j < l.length) :
    mget (setEachIdx posOf i l m) (l.get ⟨j, hj⟩).id
      = some (posOf (i + j) (l.get ⟨j, hj⟩)) := by
  induction l generalizing i m j with
  | nil => exact absurd hj (Nat.not_lt_zero j)
  | cons d rest ih =>
      simp only [List.map_cons, List.nodup_cons] at hl
      cases j with
      | zero =>
          rw [setEachIdx]
          show mget _ d.id = some (posOf (i + 0) d)
          rw [mget_setEachIdx_of_not_mem _ _ _ _ _ hl.1, mget_mset_self, Nat.add_zero]
      | succ jj =>
          rw [setEachIdx]
          have hjj : jj < rest.length := Nat.lt_of_succ_lt_succ hj
          have heq : i + (jj + 1) = (i + 1) + jj := by omega
          show mget _ (rest.get ⟨jj, hjj⟩).id
            = some (posOf (i + (jj + 1)) (rest.get ⟨jj, hjj⟩))
          rw [heq]
          exact ih _ _ hl.2 jj hjj

theorem mget_applyManualOverrides_of_agree (stored : JMap Point) (l : List String)
    (m : JMap Point) (k : String) (v : Point)
    (hm : mget m k = some v) (hl : ∀ d ∈ l, d = k → mget stored d = some v) :
    mget (applyManualOverrides stored l m) k = some v := by
  induction l generalizing m with
  | nil => simpa [applyManualOverrides]
  | cons d rest ih =>
      rw [applyManualOverrides]
      rcases hd : mget stored d with _ | c
      · exact ih m hm (fun d' hd' he => hl d' (List.mem_cons_of_mem d hd') he)
      · apply ih
        · by_cases hdk : d = k
          · subst hdk
            rw [mget_mset_self]
            have := hl d (List.mem_cons_self d rest) rfl
            rw [hd] at this
            exact this.symm ▸ rfl
          · rw [mget_mset_ne _ _ _ _ (Ne.symm hdk)]
            exact hm
        · exact fun d' hd' he => hl d' (List.mem_cons_of_mem d hd') he

theorem mget_applyManualOverrides_mem (stored : JMap Point) (l : List String)
    (m : JMap Point) (k : String) (v : Point)
    (hk : k ∈ l) (hv : mget stored k = some v) :
    mget (applyManualOverrides stored l m) k = some v := by
  induction l generalizing m with
  | nil => cases hk
  | cons d rest ih =>
      rw [applyManualOverrides]
      by_cases hdk : d = k
      · subst hdk
        rw [hv]
        exact mget_applyManualOverrides_of_agree stored rest _ d v (mget_mset_self _ _ _)
          (fun d' _ he => he ▸ hv)
      · rcases List.mem_cons.mp hk with rfl | hk'
        · exact absurd rfl hdk
        · rcases hd : mget stored d with _ | c
          · exact ih _ hk'
          · exact ih _ hk'

theorem mget_applyManualOverrides_of_not_mem (stored : JMap Point) (l : List String)
    (m : JMap Point) (k : String) (h : k ∉ l) :
    mget (applyManualOverrides stored l m) k = mget m k := by
  induction l generalizing m with
  | nil => rfl
  | cons d rest ih =>
      simp only [List.mem_cons] at h
      push_neg at h
      rw [applyManualOverrides]
      rcases hd : mget stored d with _ | c
      · exact ih _ h.2
      · rw [ih _ h.2, mget_mset_ne _ _ _ _ h.1]

theorem mem_mkeys_applyManualOverrides (stored : JMap Point) (l : List String)
    (m : JMap Point) (k : String) :
    k ∈ mkeys (applyManualOverrides stored l m) ↔
      k ∈ mkeys m ∨ (k ∈ l ∧ (mget stored k).isSome) := by
  induction l generalizing m with
  | nil => simp [applyManualOverrides]
  | cons d rest ih =>
      rw [applyManualOverrides]
      rcases hd : mget stored d with _ | c
      · rw [ih]
        simp only [List.mem_cons]
        constructor
        · rintro (hm | ⟨hr, hs⟩)
          · exact Or.inl hm
          · exact Or.inr ⟨Or.inr hr, hs⟩
        · rintro (hm | ⟨rfl | hr, hs⟩)
          · exact Or.inl hm
          · rw [hd] at hs; cases hs
          · exact Or.inr ⟨hr, hs⟩
      · rw [ih]
        simp only [mem_mkeys_mset, List.mem_cons]
        constructor
        · rintro ((rfl | hm) | ⟨hr, hs⟩)
          · exact Or.inr ⟨Or.inl rfl, by rw [hd]; rfl⟩
          · exact Or.inl hm
          · exact Or.inr ⟨Or.inr hr, hs⟩
        · rintro (hm | ⟨rfl | hr, hs⟩)
          · exact Or.inl (Or.inr hm)
          · exact Or.inl (Or.inl rfl)
          · exact Or.inr ⟨hr, hs⟩

theorem nodup_mkeys_applyManualOverrides (stored : JMap Point) (l : List String)
    (m : JMap Point) (h : (mkeys m).Nodup) :
    (mkeys (applyManualOverrides stored l m)).Nodup := by
  induction l generalizing m with
  | nil => simpa [applyManualOverrides]
  | cons d rest ih =>
      rw [applyManualOverrides]
      rcases hd : mget stored d with _ | c
      · exact ih _ h
      · exact ih _ (nodup_mkeys_mset _ _ _ h)

theorem mem_mkeys_applyForces (dims : Dimensions) (forces : JMap Point)
    (l : List RuckusDevice) (m : JMap Point) (k : String) :
    k ∈ mkeys (applyForces dims forces l m) ↔ k ∈ mkeys m ∨ k ∈ l.map RuckusDevice.id := by
  induction l generalizing m with
  | nil => simp [applyForces]
  | cons d rest ih =>
      simp only [applyForces, ih, mem_mkeys_mset, List.map_cons, List.mem_cons]
      tauto

theorem nodup_mkeys_applyForces (dims : Dimensions) (forces : JMap Point)
    (l : List RuckusDevice) (m : JMap Point) (h : (mkeys m).Nodup) :
    (mkeys (applyForces dims forces l m)).Nodup := by
  induction l generalizing m with
  | nil => simpa [applyForces]
  | cons d rest ih => exact ih _ (nodup_mkeys_mset _ _ _ h)

theorem find_filter_unique {α : Type} {p : α → Bool} {l : List α} {a : α}
    (hf : l.find? p = some a) (hlen : (l.filter p).length ≤ 1) :
    ∀ b ∈ l, p b = true → b = a := by
  induction l with
  | nil => cases hf
  | cons x rest ih =>
      by_cases hx : p x = true
      · rw [List.find?_cons_of_pos _ hx] at hf
        injection hf with hf
        subst hf
        rw [List.filter_cons_of_pos hx] at hlen
        have hrest : rest.filter p = [] := by
          cases hfil : rest.filter p with
          | nil => rfl
          | cons y ys => rw [hfil] at hlen; simp at hlen
        intro b hb hpb
        rcases List.mem_cons.mp hb with rfl | hb'
        · rfl
        · have := List.filter_eq_nil_iff.mp hrest b hb'
          exact absurd hpb this
      · rw [List.find?_cons_of_neg _ hx] at hf
        rw [List.filter_cons_of_neg hx] at hlen
        intro b hb hpb
        rcases List.mem_cons.mp hb with rfl | hb'
        · exact absurd hpb hx
        · exact ih hf hlen b hb' hpb

theorem mem_tier_ids_iff (devices : List RuckusDevice) (k : String) :
    (k ∈ (devices.filter (fun d => d.type == DeviceType.switch)).map RuckusDevice.id ∨
      k ∈ (devices.filter (fun d => d.type == DeviceType.ap)).map RuckusDevice.id ∨
      k ∈ (devices.filter
        (fun d => d.type != DeviceType.switch && d.type != DeviceType.ap)).map RuckusDevice.id)
    ↔ k ∈ devices.map RuckusDevice.id := by
  simp only [List.mem_map, List.mem_filter, Bool.and_eq_true, bne_iff_ne, beq_iff_eq]
  constructor
  · rintro (⟨d, ⟨hd, _⟩, rfl⟩ | ⟨d, ⟨hd, _⟩, rfl⟩ | ⟨d, ⟨hd, _⟩, rfl⟩) <;> exact ⟨d, hd, rfl⟩
  · rintro ⟨d, hd, rfl⟩
    rcases htype : d.type with _ | _ | _ | _
    · exact Or.inr (Or.inl ⟨d, ⟨hd, htype⟩, rfl⟩)
    · exact Or.inl ⟨d, ⟨hd, htype⟩, rfl⟩
    · exact Or.inr (Or.inr ⟨d, ⟨hd, by simp [htype]⟩, rfl⟩)
    · exact Or.inr (Or.inr ⟨d, ⟨hd, by simp [htype]⟩, rfl⟩)

theorem tree_ids_cover (devices : List RuckusDevice) (sw : RuckusDevice) (k : String)
    (hf : devices.find? (fun d => d.type == DeviceType.switch) = some sw)
    (hlen : (devices.filter (fun d => d.type == DeviceType.switch)).length ≤ 1) :
    (k = sw.id ∨
      k ∈ (devices.filter (fun d => d.type == DeviceType.ap)).map RuckusDevice.id ∨
      k ∈ (devices.filter
        (fun d => d.type != DeviceType.switch && d.type != DeviceType.ap)).map RuckusDevice.id)
    ↔ k ∈ devices.map RuckusDevice.id := by
  have hsw : sw ∈ devices := List.mem_of_find?_eq_some hf
  have huniq := find_filter_unique hf hlen
  simp only [List.mem_map, List.mem_filter, Bool.and_eq_true, bne_iff_ne, beq_iff_eq]
  constructor
  · rintro (rfl | ⟨d, ⟨hd, _⟩, rfl⟩ | ⟨d, ⟨hd, _⟩, rfl⟩)
    · exact ⟨sw, hsw, rfl⟩
    · exact ⟨d, hd, rfl⟩
    · exact ⟨d, hd, rfl⟩
  · rintro ⟨d, hd, rfl⟩
    rcases htype : d.type with _ | _ | _ | _
    · exact Or.inr (Or.inl ⟨d, ⟨hd, htype⟩, rfl⟩)
    · exact Or.inl (by rw [huniq d hd (by simp [htype])])
    · exact Or.inr (Or.inr ⟨d, ⟨hd, by simp [htype]⟩, rfl⟩)
    · exact Or.inr (Or.inr ⟨d, ⟨hd, by simp [htype]⟩, rfl⟩)

theorem mem_mkeys_fdIteration (env : NumEnv) (devices : List RuckusDevice)
    (links : List LLDPLink) (dims : Dimensions) (kFR : ℚ) (ps : JMap Point) (k : String) :
    k ∈ mkeys (fdIteration env devices links dims kFR ps) ↔
      k ∈ mkeys ps ∨ k ∈ devices.map RuckusDevice.id := by
  rw [fdIteration, mem_mkeys_applyForces]

theorem mem_mkeys_fdIterate (env : NumEnv) (devices : List RuckusDevice)
    (links : List LLDPLink) (dims : Dimensions) (kFR : ℚ) (n : ℕ) (ps : JMap Point)
    (hps : ∀ k', k' ∈ mkeys ps ↔ k' ∈ devices.map RuckusDevice.id) (k : String) :
    k ∈ mkeys (fdIterate env devices links dims kFR n ps) ↔
      k ∈ devices.map RuckusDevice.id := by
  induction n generalizing ps with
  | zero => exact hps k
  | succ n ih =>
      rw [fdIterate]
      exact ih _ (fun k' => by rw [mem_mkeys_fdIteration, hps k']; tauto)

theorem nodup_mkeys_fdIterate (env : NumEnv) (devices : List RuckusDevice)
    (links : List LLDPLink) (dims : Dimensions) (kFR : ℚ) (n : ℕ) (ps : JMap Point)
    (hps : (mkeys ps).Nodup) :
    (mkeys (fdIterate env devices links dims kFR n ps)).Nodup := by
  induction n generalizing ps with
  | zero => exact hps
  | succ n ih =>
      rw [fdIterate]
      exact ih _ (nodup_mkeys_applyForces _ _ _ _ hps)

theorem mem_mkeys_baseLayout (env : NumEnv) (devices : List RuckusDevice)
    (links : List LLDPLink) (dims : Dimensions) (layout : LayoutType) (k : String)
    (htree : layout = LayoutType.tree →
      (devices.filter (fun d => d.type == DeviceType.switch)).length ≤ 1) :
    k ∈ mkeys (baseLayout env devices links dims layout)
      ↔ k ∈ devices.map RuckusDevice.id := by
  cases layout with
  | circle =>
      show k ∈ mkeys (circlePositions env devices dims) ↔ _
      simp only [circlePositions, mem_mkeys_setEachIdx, mkeys_nil, List.not_mem_nil, false_or]
  | grid =>
      show k ∈ mkeys (gridPositions devices dims) ↔ _
      simp only [gridPositions, mem_mkeys_setEachIdx, mkeys_nil, List.not_mem_nil, false_or]
  | hierarchical =>
      show k ∈ mkeys (hierarchicalPositions devices dims) ↔ _
      rw [← mem_tier_ids_iff devices k]
      simp only [hierarchicalPositions, mem_mkeys_setEachIdx, mkeys_nil,
        List.not_mem_nil, false_or]
      tauto
  | forceDirected =>
      show k ∈ mkeys (forceDirectedPositions env devices links dims) ↔ _
      rw [forceDirectedPositions]
      exact mem_mkeys_fdIterate _ _ _ _ _ _ _
        (fun k' => by
          simp only [fdInitPositions, mem_mkeys_setEachIdx, mkeys_nil, List.not_mem_nil,
            false_or]) k
  | tree =>
      show k ∈ mkeys (treePositions env devices dims) ↔ _
      rw [treePositions]
      rcases hf : devices.find? (fun d => d.type == DeviceType.switch) with _ | sw
      · rw [hf]
        simp only [circlePositions, mem_mkeys_setEachIdx, mkeys_nil, List.not_mem_nil,
          false_or]
      · rw [hf, ← tree_ids_cover devices sw k hf (htree rfl)]
        simp only [mem_mkeys_setEachIdx, mem_mkeys_mset, mkeys_nil, List.not_mem_nil,
          or_false, false_or]
        tauto

theorem nodup_mkeys_baseLayout (env : NumEnv) (devices : List RuckusDevice)
    (links : List LLDPLink) (dims : Dimensions) (layout : LayoutType) :
    (mkeys (baseLayout env devices links dims layout)).Nodup := by
  cases layout with
  | circle => exact nodup_mkeys_setEachIdx _ _ _ _ (by simp [mkeys])
  | grid => exact nodup_mkeys_setEachIdx _ _ _ _ (by simp [mkeys])
  | hierarchical =>
      exact nodup_mkeys_setEachIdx _ _ _ _
        (nodup_mkeys_setEachIdx _ _ _ _ (nodup_mkeys_setEachIdx _ _ _ _ (by simp [mkeys])))
  | forceDirected =>
      show (mkeys (forceDirectedPositions env devices links dims)).Nodup
      rw [forceDirectedPositions]
      exact nodup_mkeys_fdIterate _ _ _ _ _ _ _
        (nodup_mkeys_setEachIdx _ _ _ _ (by simp [mkeys]))
  | tree =>
      show (mkeys (treePositions env devices dims)).Nodup
      rw [treePositions]
      rcases hf : devices.find? (fun d => d.type == DeviceType.switch) with _ | sw
      · rw [hf]
        exact nodup_mkeys_setEachIdx _ _ _ _ (by simp [mkeys])
      · rw [hf]
        exact nodup_mkeys_setEachIdx _ _ _ _
          (nodup_mkeys_setEachIdx _ _ _ _ (nodup_mkeys_mset _ _ _ (by simp [mkeys])))

theorem mem_sadd_self (s : List String) (k : String) : k ∈ sadd s k := by
  rw [sadd]
  split
  · assumption
  · simp

theorem id_inj_of_nodup (devices : List RuckusDevice)
    (hids : (devices.map RuckusDevice.id).Nodup) :
    ∀ d ∈ devices, ∀ e ∈ devices, d.id = e.id → d = e :=
  List.inj_on_of_nodup_map hids

theorem nodup_filter_map_id (devices : List RuckusDevice)
    (hids : (devices.map RuckusDevice.id).Nodup) (p : RuckusDevice → Bool) :
    ((devices.filter p).map RuckusDevice.id).Nodup :=
  hids.sublist ((List.filter_sublist devices).map RuckusDevice.id)

theorem id_not_mem_filter_map (devices : List RuckusDevice)
    (hids : (devices.map RuckusDevice.id).Nodup) (p q : RuckusDevice → Bool)
    (hpq : ∀ x, p x = true → q x = true → False)
    (d : RuckusDevice) (hd1 : d ∈ devices) (hd2 : p d = true) :
    d.id ∉ (devices.filter q).map RuckusDevice.id := by
  intro hmem
  rcases List.mem_map.mp hmem with ⟨e, he, heq⟩
  rcases List.mem_filter.mp he with ⟨he1, he2⟩
  have hde : e = d := id_inj_of_nodup devices hids e he1 d hd1 heq
  subst hde
  exact hpq e hd2 he2

theorem calculateLayout_nil_manual (env : NumEnv) (devices : List RuckusDevice)
    (links : List LLDPLink) (dims : Dimensions) (layout : LayoutType)
    (stored stored' : JMap Point) :
    calculateLayout env devices links dims layout [] stored
      = calculateLayout env devices links dims layout [] stored' := by
  rw [calculateLayout, calculateLayout]
  split <;> rfl

/-- C2 counterexample: the tree layout positions only the first switch, so with
two switches (pairwise-distinct ids, empty manual set) the second input device
has no entry in the returned position map, refuting "every input device has a
position". -/
theorem calculateLayout_drops_second_switch :
    mget (calculateLayout ⟨fun _ => 0, fun _ => 0, fun _ => 0, fun _ => 0⟩
        [⟨"s1", DeviceType.switch⟩, ⟨"s2", DeviceType.switch⟩] [] ⟨800, 600⟩
        LayoutType.tree [] []) "s2" = none := rfl

/-- C2 (amended): for every device list, link list, viewport and layout type,
calculateLayout returns a map whose keys are exactly the input device ids
(each at most once), provided that every manually-positioned id carrying a
stored position is an input device id and that, for the tree layout, the
device list contains at most one switch (the tree layout gives switches after
the first no position, and a stale manual id with a stored position would add
an extra entry). -/
theorem calculateLayout_unique_positions (env : NumEnv) (devices : List RuckusDevice)
    (links : List LLDPLink) (dims : Dimensions) (layout : LayoutType)
    (manual : List String) (stored : JMap Point)
    (hids : (devices.map RuckusDevice.id).Nodup)
    (hman : ∀ d ∈ manual, (mget stored d).isSome → d ∈ devices.map RuckusDevice.id)
    (htree : layout = LayoutType.tree →
      (devices.filter (fun d => d.type == DeviceType.switch)).length ≤ 1) :
    (∀ k, (mget (calculateLayout env devices links dims layout manual stored) k).isSome
        ↔ k ∈ devices.map RuckusDevice.id)
    ∧ (mkeys (calculateLayout env devices links dims layout manual stored)).Nodup := by
  rw [calculateLayout]
  by_cases hdev : devices.length = 0
  · rw [if_pos hdev]
    have hnil : devices = [] := List.length_eq_zero.mp hdev
    subst hnil
    exact ⟨fun k => by simp [mget], by simp [mkeys]⟩
  · rw [if_neg hdev]
    refine ⟨fun k => ?_, ?_⟩
    · rw [← mem_mkeys_iff, mem_mkeys_applyManualOverrides,
        mem_mkeys_baseLayout env devices links dims layout k htree]
      constructor
      · rintro (h | ⟨hm, hs⟩)
        · exact h
        · exact hman k hm hs
      · exact Or.inl
    · exact nodup_mkeys_applyManualOverrides _ _ _ (nodup_mkeys_baseLayout _ _ _ _ _)

/-- Witness for C2's amended theorem at a concrete input. -/
theorem calculateLayout_unique_positions_witness :
    (mget (calculateLayout ⟨fun _ => 0, fun _ => 0, fun _ => 0, fun _ => 0⟩
        [⟨"a", DeviceType.ap⟩, ⟨"b", DeviceType.switch⟩] [] ⟨800, 600⟩
        LayoutType.hierarchical [] []) "a").isSome = true :=
  ((calculateLayout_unique_positions ⟨fun _ => 0, fun _ => 0, fun _ => 0, fun _ => 0⟩
      [⟨"a", DeviceType.ap⟩, ⟨"b", DeviceType.switch⟩] [] ⟨800, 600⟩
      LayoutType.hierarchical [] [] (by simp) (by simp) (by simp)).1 "a").mpr (by simp)

/-- C4: after setting a device's position with the manual flag
(positions set plus manual-set add), any layout recomputation followed by the
manual-override pass maps that id exactly to the stored position, for every
layout type and every device list containing the id. -/
theorem manual_override_invariant (env : NumEnv) (devices : List RuckusDevice)
    (links : List LLDPLink) (dims : Dimensions) (layout : LayoutType)
    (manual : List String) (stored : JMap Point) (deviceId : String) (p : Point)
    (hid : deviceId ∈ devices.map RuckusDevice.id) :
    mget (calculateLayout env devices links dims layout
        (sadd manual deviceId) (mset stored deviceId p)) deviceId = some p := by
  rw [calculateLayout]
  have hne : devices.length ≠ 0 := by
    cases devices
    · simp at hid
    · simp
  rw [if_neg hne]
  exact mget_applyManualOverrides_mem _ _ _ _ _ (mem_sadd_self _ _) (mget_mset_self _ _ _)

/-- Witness for C4 at a concrete input. -/
theorem manual_override_invariant_witness :
    mget (calculateLayout ⟨fun _ => 0, fun _ => 0, fun _ => 0, fun _ => 0⟩
        [⟨"b", DeviceType.ap⟩] [] ⟨800, 600⟩ LayoutType.grid
        (sadd [] "b") (mset [] "b" (7, 8))) "b" = some (7, 8) :=
  manual_override_invariant ⟨fun _ => 0, fun _ => 0, fun _ => 0, fun _ => 0⟩
    [⟨"b", DeviceType.ap⟩] [] ⟨800, 600⟩ LayoutType.grid [] [] "b" (7, 8) (by simp)

/-- C3: a confirmed layout-type change runs the select onChange handler and
then (because layoutType changed) the layout recompute effect; afterwards the
coordinate store equals the freshly computed algorithmic position map of the
new layout (the manual set being already cleared, the override pass is a
no-op and every previously manual placement is discarded) and the
manually-positioned set is empty.  env1 models the random draws of the
handler's computation and env2 those of the effect's. -/
theorem layout_change_confirmed (env1 env2 : NumEnv) (devices : List RuckusDevice)
    (links : List LLDPLink) (dims : Dimensions) (s : CompState) (newLayout : LayoutType)
    (hman : s.manuallyPositionedDevices.length > 0)
    (hdiff : newLayout ≠ s.layoutType) :
    (layoutRecomputeEffect env2 devices links dims
        (layoutSelectOnChange env1 devices links dims s newLayout true)).devicePositions
      = calculateLayout env2 devices links dims newLayout [] []
    ∧ (layoutRecomputeEffect env2 devices links dims
        (layoutSelectOnChange env1 devices links dims s newLayout true)).manuallyPositionedDevices
      = [] := by
  rw [layoutSelectOnChange, if_neg (by simp)]
  exact ⟨calculateLayout_nil_manual _ _ _ _ _ _ _, rfl⟩

/-- Witness for C3 at a concrete input. -/
theorem layout_change_confirmed_witness :
    (layoutRecomputeEffect ⟨fun _ => 0, fun _ => 0, fun _ => 0, fun _ => 0⟩
        [⟨"a", DeviceType.ap⟩] [] ⟨800, 600⟩
        (layoutSelectOnChange ⟨fun _ => 0, fun _ => 0, fun _ => 0, fun _ => 0⟩
          [⟨"a", DeviceType.ap⟩] [] ⟨800, 600⟩
          ⟨LayoutType.circle, 1, (0, 0), false, (0, 0), (0, 0), false, none, (0, 0),
            [("a", (1, 2))], ["a"], []⟩
          LayoutType.grid true)).devicePositions
      = calculateLayout ⟨fun _ => 0, fun _ => 0, fun _ => 0, fun _ => 0⟩
          [⟨"a", DeviceType.ap⟩] [] ⟨800, 600⟩ LayoutType.grid [] []
    ∧ (layoutRecomputeEffect ⟨fun _ => 0, fun _ => 0, fun _ => 0, fun _ => 0⟩
        [⟨"a", DeviceType.ap⟩] [] ⟨800, 600⟩
        (layoutSelectOnChange ⟨fun _ => 0, fun _ => 0, fun _ => 0, fun _ => 0⟩
          [⟨"a", DeviceType.ap⟩] [] ⟨800, 600⟩
          ⟨LayoutType.circle, 1, (0, 0), false, (0, 0), (0, 0), false, none, (0, 0),
            [("a", (1, 2))], ["a"], []⟩
          LayoutType.grid true)).manuallyPositionedDevices
      = [] :=
  layout_change_confirmed ⟨fun _ => 0, fun _ => 0, fun _ => 0, fun _ => 0⟩
    ⟨fun _ => 0, fun _ => 0, fun _ => 0, fun _ => 0⟩
    [⟨"a", DeviceType.ap⟩] [] ⟨800, 600⟩
    ⟨LayoutType.circle, 1, (0, 0), false, (0, 0), (0, 0), false, none, (0, 0),
      [("a", (1, 2))], ["a"], []⟩
    LayoutType.grid (by simp) (by simp)

/-- C9: a layout-type change request with at least one manually positioned
device and the confirm dialog declined leaves the whole component state —
positions, manual set, layout type and everything else — exactly unchanged. -/
theorem layout_change_declined (env : NumEnv) (devices : List RuckusDevice)
    (links : List LLDPLink) (dims : Dimensions) (s : CompState) (newLayout : LayoutType)
    (hman : s.manuallyPositionedDevices.length > 0) :
    layoutSelectOnChange env devices links dims s newLayout false = s := by
  rw [layoutSelectOnChange, if_pos ⟨hman, rfl⟩]

/-- Witness for C9 at a concrete input: circle to grid with two manually
positioned devices, confirmation declined. -/
theorem layout_change_declined_witness :
    layoutSelectOnChange ⟨fun _ => 0, fun _ => 0, fun _ => 0, fun _ => 0⟩
        [⟨"a", DeviceType.ap⟩, ⟨"b", DeviceType.ap⟩] [] ⟨800, 600⟩
        ⟨LayoutType.circle, 1, (0, 0), false, (0, 0), (0, 0), false, none, (0, 0),
          [("a", (1, 2)), ("b", (3, 4))], ["a", "b"], []⟩
        LayoutType.grid false
      = ⟨LayoutType.circle, 1, (0, 0), false, (0, 0), (0, 0), false, none, (0, 0),
          [("a", (1, 2)), ("b", (3, 4))], ["a", "b"], []⟩ :=
  layout_change_declined ⟨fun _ => 0, fun _ => 0, fun _ => 0, fun _ => 0⟩
    [⟨"a", DeviceType.ap⟩, ⟨"b", DeviceType.ap⟩] [] ⟨800, 600⟩
    ⟨LayoutType.circle, 1, (0, 0), false, (0, 0), (0, 0), false, none, (0, 0),
      [("a", (1, 2)), ("b", (3, 4))], ["a", "b"], []⟩
    LayoutType.grid (by simp)

/-- C10: while a device drag is active, a pointer move of screen delta
(dx, dy) at the current zoom moves the dragged device's model-space position
by exactly (dx / zoom, dy / zoom) and adds its id to the manually-positioned
set. -/
theorem device_drag_scales_delta_by_zoom (s : CompState) (draggedId : String)
    (px py dx dy : ℚ)
    (hdrag : s.isDraggingDevice = true)
    (hid : s.draggedDeviceId = some draggedId)
    (hpos : mget s.devicePositions draggedId = some (px, py))
    (hz : 0 < s.zoom) :
    mget (handleMouseMove s (s.deviceDragStart.1 + dx)
        (s.deviceDragStart.2 + dy)).devicePositions draggedId
      = some (px + dx / s.zoom, py + dy / s.zoom)
    ∧ draggedId ∈ (handleMouseMove s (s.deviceDragStart.1 + dx)
        (s.deviceDragStart.2 + dy)).manuallyPositionedDevices := by
  simp only [handleMouseMove, hdrag, hid, hpos]
  constructor
  · rw [mget_mset_self]
    simp only [Option.some.injEq, Prod.mk.injEq]
    constructor <;> ring
  · exact mem_sadd_self _ _

/-- Witness for C10: a screen delta of (50, 0) at zoom 2 moves the device's
model x from 100 to 125 (an increase of exactly 25) and marks it manual. -/
theorem device_drag_scales_delta_by_zoom_witness :
    mget (handleMouseMove
        ⟨LayoutType.circle, 2, (0, 0), false, (0, 0), (0, 0), true, some "b", (10, 20),
          [("b", (100, 200))], [], []⟩
        (10 + 50) (20 + 0)).devicePositions "b"
      = some (100 + 50 / 2, 200 + 0 / 2)
    ∧ "b" ∈ (handleMouseMove
        ⟨LayoutType.circle, 2, (0, 0), false, (0, 0), (0, 0), true, some "b", (10, 20),
          [("b", (100, 200))], [], []⟩
        (10 + 50) (20 + 0)).manuallyPositionedDevices :=
  device_drag_scales_delta_by_zoom
    ⟨LayoutType.circle, 2, (0, 0), false, (0, 0), (0, 0), true, some "b", (10, 20),
      [("b", (100, 200))], [], []⟩
    "b" 100 200 50 0 rfl rfl rfl (by norm_num)

/-- C5 counterexample: loading an unknown snapshot name at a concrete state is
silently ignored: the state is returned unchanged and NO alert (report) is
raised, refuting the claim that the failure is reported to the caller as a
SnapshotNotFound error. -/
theorem loadView_missing_name_silent :
    loadView ⟨LayoutType.circle, 1, (0, 0), false, (0, 0), (0, 0), false, none, (0, 0),
        [("a", (1, 2))], ["a"], []⟩ "A"
      = (⟨LayoutType.circle, 1, (0, 0), false, (0, 0), (0, 0), false, none, (0, 0),
          [("a", (1, 2))], ["a"], []⟩, none) := rfl

/-- C5 (amended): loading or deleting a snapshot name absent from the saved
view collection causes no state mutation — positions, layout type, manual set
and the snapshot collection are unchanged, for any venue id and any confirm
dialog outcome — but the failure is not reported: loadView raises no alert
and deleteView has no report channel at all. -/
theorem missing_snapshot_no_mutation (s : CompState) (venueId : Option String)
    (viewName : String) (confirmResult : Bool)
    (hmiss : mget s.savedViews viewName = none) :
    loadView s viewName = (s, none)
    ∧ deleteView s venueId viewName confirmResult = s := by
  constructor
  · rw [loadView, hmiss]
  · rw [deleteView.eq_def]
    cases venueId with
    | none => rfl
    | some v =>
        by_cases hc : confirmResult
        · rw [if_pos hc, mdelete_of_not_mem _ _ (by simp [mem_mkeys_iff, hmiss])]
        · rw [if_neg hc]

/-- Witness for C5's amended theorem at a concrete input. -/
theorem missing_snapshot_no_mutation_witness :
    loadView ⟨LayoutType.grid, 1, (0, 0), false, (0, 0), (0, 0), false, none, (0, 0),
        [("a", (1, 2))], ["a"],
        [("saved", ⟨[("a", (5, 6))], LayoutType.circle, []⟩)]⟩ "missing"
      = (⟨LayoutType.grid, 1, (0, 0), false, (0, 0), (0, 0), false, none, (0, 0),
          [("a", (1, 2))], ["a"],
          [("saved", ⟨[("a", (5, 6))], LayoutType.circle, []⟩)]⟩, none)
    ∧ deleteView ⟨LayoutType.grid, 1, (0, 0), false, (0, 0), (0, 0), false, none, (0, 0),
        [("a", (1, 2))], ["a"],
        [("saved", ⟨[("a", (5, 6))], LayoutType.circle, []⟩)]⟩ (some "venue1") "missing" true
      = ⟨LayoutType.grid, 1, (0, 0), false, (0, 0), (0, 0), false, none, (0, 0),
          [("a", (1, 2))], ["a"],
          [("saved", ⟨[("a", (5, 6))], LayoutType.circle, []⟩)]⟩ :=
  missing_snapshot_no_mutation
    ⟨LayoutType.grid, 1, (0, 0), false, (0, 0), (0, 0), false, none, (0, 0),
      [("a", (1, 2))], ["a"],
      [("saved", ⟨[("a", (5, 6))], LayoutType.circle, []⟩)]⟩
    (some "venue1") "missing" true rfl

/-- C6: saving the current view under a name for a venue and then loading the
saved name (saveView stores the prompt's input trimmed, and the load dropdown
offers exactly the stored names) restores exactly the layoutType, positions
and manuallyPositioned triple that existed at save time, whatever the three
fields were changed to in between. -/
theorem save_load_round_trip (s : CompState) (v : String) (name : String)
    (pos2 : JMap Point) (lt2 : LayoutType) (man2 : List String)
    (hname : strTrim name ≠ "") :
    (loadView
        { (saveView s (some v) (some name)).1 with
          devicePositions := pos2
          layoutType := lt2
          manuallyPositionedDevices := man2 }
        (strTrim name)).1.devicePositions = s.devicePositions
    ∧ (loadView
        { (saveView s (some v) (some name)).1 with
          devicePositions := pos2
          layoutType := lt2
          manuallyPositionedDevices := man2 }
        (strTrim name)).1.layoutType = s.layoutType
    ∧ (loadView
        { (saveView s (some v) (some name)).1 with
          devicePositions := pos2
          layoutType := lt2
          manuallyPositionedDevices := man2 }
        (strTrim name)).1.manuallyPositionedDevices = s.manuallyPositionedDevices := by
  have hname' : name ≠ "" := fun h => hname (by rw [h]; rfl)
  simp only [saveView]
  rw [if_neg hname', if_neg hname]
  simp only [loadView, mget_mset_self]
  exact ⟨trivial, trivial, trivial⟩

/-- Witness for C6 at a concrete input: save as A, change all three fields,
load A, and the original triple is back. -/
theorem save_load_round_trip_witness :
    (loadView
        { (saveView ⟨LayoutType.circle, 1, (0, 0), false, (0, 0), (0, 0), false, none,
            (0, 0), [("a", (1, 2))], ["a"], []⟩ (some "venue1") (some "A")).1 with
          devicePositions := []
          layoutType := LayoutType.grid
          manuallyPositionedDevices := [] }
        (strTrim "A")).1.devicePositions = [("a", (1, 2))]
    ∧ (loadView
        { (saveView ⟨LayoutType.circle, 1, (0, 0), false, (0, 0), (0, 0), false, none,
            (0, 0), [("a", (1, 2))], ["a"], []⟩ (some "venue1") (some "A")).1 with
          devicePositions := []
          layoutType := LayoutType.grid
          manuallyPositionedDevices := [] }
        (strTrim "A")).1.layoutType = LayoutType.circle
    ∧ (loadView
        { (saveView ⟨LayoutType.circle, 1, (0, 0), false, (0, 0), (0, 0), false, none,
            (0, 0), [("a", (1, 2))], ["a"], []⟩ (some "venue1") (some "A")).1 with
          devicePositions := []
          layoutType := LayoutType.grid
          manuallyPositionedDevices := [] }
        (strTrim "A")).1.manuallyPositionedDevices = ["a"] :=
  save_load_round_trip
    ⟨LayoutType.circle, 1, (0, 0), false, (0, 0), (0, 0), false, none, (0, 0),
      [("a", (1, 2))], ["a"], []⟩
    "venue1" "A" [] LayoutType.grid [] (by decide)

/-- C7 counterexample: a single switch in an 800 x 600 viewport is placed by
the hierarchical layout at x = 50 (the margin), not at the horizontal center
400 = 800 / 2 — a one-device tier is not centered. -/
theorem hierarchical_single_device_tier_at_margin :
    mget (calculateLayout ⟨fun _ => 0, fun _ => 0, fun _ => 0, fun _ => 0⟩
        [⟨"s", DeviceType.switch⟩] [] ⟨800, 600⟩ LayoutType.hierarchical [] []) "s"
      = some (50, 100)
    ∧ (50 : ℚ) ≠ 800 / 2 := by
  constructor
  · norm_num [calculateLayout, baseLayout, hierarchicalPositions, applyManualOverrides,
      setEachIdx, mget, mset, margin, List.filter]
  · norm_num

/-- C7 (amended): in the hierarchical layout (with no manual overrides in
play), the j-th device of each type tier — switches, access points, others —
sits on its tier's row at
x = margin + j * (width - 2 margin) / max(tierLength - 1, 1): a tier of two
or more devices is spread evenly from margin to width - margin, but a tier
with exactly one device sits at x = margin, the left edge of the span, not
horizontally centered; an empty tier contributes no positions (it has no
devices to place). -/
theorem hierarchical_tier_spacing (env : NumEnv) (devices : List RuckusDevice)
    (links : List LLDPLink) (dims : Dimensions) (stored : JMap Point)
    (hids : (devices.map RuckusDevice.id).Nodup) :
    (∀ j : ℕ, ∀ hj : j < (devices.filter (fun d => d.type == DeviceType.switch)).length,
      mget (calculateLayout env devices links dims LayoutType.hierarchical [] stored)
          ((devices.filter (fun d => d.type == DeviceType.switch)).get ⟨j, hj⟩).id
        = some (margin + (j : ℚ) * (dims.width - 2 * margin) /
              ((max ((devices.filter
                (fun d => d.type == DeviceType.switch)).length - 1) 1 : ℕ) : ℚ),
            margin + 50))
    ∧ (∀ j : ℕ, ∀ hj : j < (devices.filter (fun d => d.type == DeviceType.ap)).length,
      mget (calculateLayout env devices links dims LayoutType.hierarchical [] stored)
          ((devices.filter (fun d => d.type == DeviceType.ap)).get ⟨j, hj⟩).id
        = some (margin + (j : ℚ) * (dims.width - 2 * margin) /
              ((max ((devices.filter
                (fun d => d.type == DeviceType.ap)).length - 1) 1 : ℕ) : ℚ),
            dims.height / 2))
    ∧ (∀ j : ℕ, ∀ hj : j < (devices.filter
        (fun d => d.type != DeviceType.switch && d.type != DeviceType.ap)).length,
      mget (calculateLayout env devices links dims LayoutType.hierarchical [] stored)
          ((devices.filter
            (fun d => d.type != DeviceType.switch && d.type != DeviceType.ap)).get
              ⟨j, hj⟩).id
        = some (margin + (j : ℚ) * (dims.width - 2 * margin) /
              ((max ((devices.filter
                (fun d => d.type != DeviceType.switch && d.type != DeviceType.ap)).length
                  - 1) 1 : ℕ) : ℚ),
            dims.height - margin - 50)) := by
  have hnonnil : ∀ d : RuckusDevice, d ∈ devices → ¬devices.length = 0 := by
    intro d hd
    cases devices
    · cases hd
    · simp
  refine ⟨fun j hj => ?_, fun j hj => ?_, fun j hj => ?_⟩
  · have hmem := List.get_mem (devices.filter (fun d => d.type == DeviceType.switch)) j hj
    have hmemdev := (List.mem_filter.mp hmem).1
    have hp := (List.mem_filter.mp hmem).2
    rw [calculateLayout, if_neg (hnonnil _ hmemdev)]
    show mget (hierarchicalPositions devices dims) _ = _
    simp only [hierarchicalPositions]
    rw [mget_setEachIdx_of_not_mem _ _ _ _ _
        (id_not_mem_filter_map devices hids (fun d => d.type == DeviceType.switch)
          (fun d => d.type != DeviceType.switch && d.type != DeviceType.ap)
          (by intro x h1 h2; rw [beq_iff_eq] at h1; simp [h1] at h2) _ hmemdev hp),
      mget_setEachIdx_of_not_mem _ _ _ _ _
        (id_not_mem_filter_map devices hids (fun d => d.type == DeviceType.switch)
          (fun d => d.type == DeviceType.ap)
          (by intro x h1 h2; rw [beq_iff_eq] at h1; simp [h1] at h2)
          _ hmemdev hp),
      mget_setEachIdx_get _ _ _ _ (nodup_filter_map_id devices hids _) j hj]
    simp
  · have hmem := List.get_mem (devices.filter (fun d => d.type == DeviceType.ap)) j hj
    have hmemdev := (List.mem_filter.mp hmem).1
    have hp := (List.mem_filter.mp hmem).2
    rw [calculateLayout, if_neg (hnonnil _ hmemdev)]
    show mget (hierarchicalPositions devices dims) _ = _
    simp only [hierarchicalPositions]
    rw [mget_setEachIdx_of_not_mem _ _ _ _ _
        (id_not_mem_filter_map devices hids (fun d => d.type == DeviceType.ap)
          (fun d => d.type != DeviceType.switch && d.type != DeviceType.ap)
          (by intro x h1 h2; rw [beq_iff_eq] at h1; simp [h1] at h2) _ hmemdev hp),
      mget_setEachIdx_get _ _ _ _ (nodup_filter_map_id devices hids _) j hj]
    simp
  · have hmem := List.get_mem (devices.filter
      (fun d => d.type != DeviceType.switch && d.type != DeviceType.ap)) j hj
    have hmemdev := (List.mem_filter.mp hmem).1
    rw [calculateLayout, if_neg (hnonnil _ hmemdev)]
    show mget (hierarchicalPositions devices dims) _ = _
    simp only [hierarchicalPositions]
    rw [mget_setEachIdx_get _ _ _ _ (nodup_filter_map_id devices hids _) j hj]
    simp

/-- Witness for C7's amended theorem at a concrete input: with two switches in
a 900-wide viewport the second switch sits at x = 50 + 1 * 800 / 1 = 850. -/
theorem hierarchical_tier_spacing_witness :
    mget (calculateLayout ⟨fun _ => 0, fun _ => 0, fun _ => 0, fun _ => 0⟩
        [⟨"s1", DeviceType.switch⟩, ⟨"s2", DeviceType.switch⟩] [] ⟨900, 600⟩
        LayoutType.hierarchical [] []) "s2" = some (850, 100) := by
  have h := (hierarchical_tier_spacing ⟨fun _ => 0, fun _ => 0, fun _ => 0, fun _ => 0⟩
    [⟨"s1", DeviceType.switch⟩, ⟨"s2", DeviceType.switch⟩] [] ⟨900, 600⟩ []
    (by decide)).1 1 (by decide)
  norm_num [margin, List.filter] at h
  exact h

theorem ring_point_ne_center (cx cy R c s : ℚ) (hR : R ≠ 0) (hcs : c ^ 2 + s ^ 2 = 1) :
    (cx + R * c, cy + R * s) ≠ (cx, cy) := by
  intro h
  rw [Prod.mk.injEq] at h
  have hc : c = 0 := by
    have h1 := h.1
    have hRc : R * c = 0 := by linarith
    rcases mul_eq_zero.mp hRc with h' | h'
    · exact absurd h' hR
    · exact h'
  have hs : s = 0 := by
    have h2 := h.2
    have hRs : R * s = 0 := by linarith
    rcases mul_eq_zero.mp hRs with h' | h'
    · exact absurd h' hR
    · exact h'
  rw [hc, hs] at hcs
  norm_num at hcs

/-- C8: in the tree layout (no manual overrides), for a non-empty device list
with pairwise-distinct ids and a positive viewport: when a switch exists (the
source's find? returns one), an id is mapped to the exact viewport center iff
it is that first switch's id — exactly one device sits at the center; when no
switch exists, the result is identical to the circle layout on the same
inputs.  cosF and sinF are assumed to satisfy the Pythagorean identity, as
the real cosine and sine they stand for do. -/
theorem tree_center_and_circle_fallback (env : NumEnv) (devices : List RuckusDevice)
    (links : List LLDPLink) (dims : Dimensions) (stored : JMap Point)
    (hids : (devices.map RuckusDevice.id).Nodup)
    (hdev : devices ≠ [])
    (hw : 0 < dims.width) (hh : 0 < dims.height)
    (hpyth : ∀ t : ℚ, env.cosF t ^ 2 + env.sinF t ^ 2 = 1) :
    (∀ sw : RuckusDevice, devices.find? (fun d => d.type == DeviceType.switch) = some sw →
      ∀ k : String,
        (mget (calculateLayout env devices links dims LayoutType.tree [] stored) k
            = some (dims.width / 2, dims.height / 2)
          ↔ k = sw.id))
    ∧ (devices.find? (fun d => d.type == DeviceType.switch) = none →
      calculateLayout env devices links dims LayoutType.tree [] stored
        = calculateLayout env devices links dims LayoutType.circle [] stored) := by
  have hlen : ¬devices.length = 0 := fun h => hdev (List.length_eq_zero.mp h)
  constructor
  · intro sw hf k
    have hsw : sw ∈ devices := List.mem_of_find?_eq_some hf
    have hp := List.find?_some hf
    rw [calculateLayout, if_neg hlen]
    show mget (treePositions env devices dims) k
        = some (dims.width / 2, dims.height / 2) ↔ k = sw.id
    rw [treePositions, hf]
    dsimp only
    by_cases hk : k = sw.id
    · subst hk
      apply iff_of_true _ rfl
      rw [mget_setEachIdx_of_not_mem _ _ _ _ _
          (id_not_mem_filter_map devices hids (fun d => d.type == DeviceType.switch)
            (fun d => d.type != DeviceType.switch && d.type != DeviceType.ap)
            (by intro x h1 h2; rw [beq_iff_eq] at h1; simp [h1] at h2) _ hsw hp),
        mget_setEachIdx_of_not_mem _ _ _ _ _
          (id_not_mem_filter_map devices hids (fun d => d.type == DeviceType.switch)
            (fun d => d.type == DeviceType.ap)
            (by intro x h1 h2; rw [beq_iff_eq] at h1; simp [h1] at h2) _ hsw hp),
        mget_mset_self]
    · apply iff_of_false _ hk
      intro habs
      by_cases hko : k ∈ (devices.filter
          (fun d => d.type != DeviceType.switch && d.type != DeviceType.ap)).map
            RuckusDevice.id
      · obtain ⟨e, he, heq⟩ := List.mem_map.mp hko
        obtain ⟨⟨jj, hjj⟩, hget⟩ := List.mem_iff_get.mp he
        rw [← heq, ← hget,
          mget_setEachIdx_get _ _ _ _ (nodup_filter_map_id devices hids _) jj hjj,
          Option.some.injEq] at habs
        exact ring_point_ne_center _ _ _ _ _
          (ne_of_gt (mul_pos (lt_min hw hh) (by norm_num))) (hpyth _) habs
      · rw [mget_setEachIdx_of_not_mem _ _ _ _ _ hko] at habs
        by_cases hka : k ∈ (devices.filter (fun d => d.type == DeviceType.ap)).map
            RuckusDevice.id
        · obtain ⟨e, he, heq⟩ := List.mem_map.mp hka
          obtain ⟨⟨jj, hjj⟩, hget⟩ := List.mem_iff_get.mp he
          rw [← heq, ← hget,
            mget_setEachIdx_get _ _ _ _ (nodup_filter_map_id devices hids _) jj hjj,
            Option.some.injEq] at habs
          exact ring_point_ne_center _ _ _ _ _
            (ne_of_gt (mul_pos (lt_min hw hh) (by norm_num))) (hpyth _) habs
        · rw [mget_setEachIdx_of_not_mem _ _ _ _ _ hka,
            mget_mset_ne _ _ _ _ hk] at habs
          cases habs
  · intro hf
    have hbase : treePositions env devices dims = circlePositions env devices dims := by
      rw [treePositions, hf]
    rw [calculateLayout, calculateLayout]
    simp only [baseLayout, hbase]

/-- Witness for C8 at a concrete input: one switch at the center of an
800 x 600 viewport. -/
theorem tree_center_and_circle_fallback_witness :
    mget (calculateLayout ⟨fun _ => 1, fun _ => 0, fun _ => 0, fun _ => 0⟩
        [⟨"sw", DeviceType.switch⟩, ⟨"a", DeviceType.ap⟩] [] ⟨800, 600⟩
        LayoutType.tree [] []) "sw"
      = some (800 / 2, 600 / 2) :=
  ((tree_center_and_circle_fallback ⟨fun _ => 1, fun _ => 0, fun _ => 0, fun _ => 0⟩
      [⟨"sw", DeviceType.switch⟩, ⟨"a", DeviceType.ap⟩] [] ⟨800, 600⟩ []
      (by decide) (by decide) (by norm_num) (by norm_num)
      (fun t => by norm_num)).1
    ⟨"sw", DeviceType.switch⟩ rfl "sw").mpr rfl

/-- C1 (code bug): the repulsive-force constant is shadowed.  The source
declares k = Math.sqrt(width * height / n) — the Fruchterman-Reingold
constant, which the attractive pass correctly uses as distance^2 / k — but
the inner pair loop re-declares k as its loop counter
(for (let k = j + 1; ...)), so the repulsive force magnitude computed is
(inner loop index)^2 / distance, not the claimed k^2 / distance.  Concrete
evaluation: devices d1 at (0, 0) and d2 at (3, 4) (distance 5) in an
800 x 400 viewport with n = 2, so k = sqrt(160000) = 400: the repulsive pass
stores the force (-3/25, -4/25) on d1, whose squared magnitude is
(1/5)^2 — the loop index is 1 — while the claimed magnitude is
k^2 / distance = 400^2 / 5 = 32000 ≠ 1/5. -/
theorem repulsive_force_uses_loop_index :
    mget
      (repelOuter
        ⟨fun _ => 0, fun _ => 0,
          fun q => if q = 25 then 5 else if q = 160000 then 400 else 0, fun _ => 0⟩
        [("d1", (0, 0)), ("d2", (3, 4))] 0
        [⟨"d1", DeviceType.ap⟩, ⟨"d2", DeviceType.ap⟩]
        (initForces [⟨"d1", DeviceType.ap⟩, ⟨"d2", DeviceType.ap⟩] []))
      "d1" = some (-3/25, -4/25)
    ∧ NumEnv.sqrtF
        ⟨fun _ => 0, fun _ => 0,
          fun q => if q = 25 then 5 else if q = 160000 then 400 else 0, fun _ => 0⟩
        ((800 * 400) / 2) = 400
    ∧ ((-3/25 : ℚ) ^ 2 + (-4/25 : ℚ) ^ 2 = (1 / 5) ^ 2)
    ∧ ((1 / 5 : ℚ) ≠ 400 ^ 2 / 5) := by
  refine ⟨?_, by norm_num, by norm_num, by norm_num⟩
  norm_num [repelOuter, repelInner, initForces, mget, mset, jsOr1,
    (by decide : ¬("d1" : String) = "d2"), (by decide : ¬("d2" : String) = "d1")]

end R1Mapper
